import Mathlib

/-
Verification of the Anthropic instrumentation shim
(`opentelemetry/instrumentation/anthropic/__init__.py`).

The Python module is shallowly embedded: each function of the source file
becomes a Lean definition of the same name (underscores kept), Python
`None` becomes `Option.none` or the `Value.none` attribute value, Python
truthiness is made explicit, and the span is an explicit record threaded
through the attribute-writing functions.  External collaborators (the
tracer, the token counter, the patching utility, the `json` module) are
modelled by their documented behaviour.
-/

set_option autoImplicit false

namespace AnthropicShim

/-- A Python scalar as it can appear as a span-attribute value or as the
`data` payload of an image block: `None`, a string, or an integer. -/
inductive Value where
  | none
  | str (s : String)
  | int (n : Int)
deriving DecidableEq, Repr

/-- Python truthiness of a `Value` (`bool(v)`). -/
def pyTruthy : Value → Bool
  | .none => false
  | .str s => !(s = "")
  | .int n => !(n = 0)

/-- Python `str(v)` coercion, used for the image `data` payload. -/
def pyStr : Value → String
  | .none => "None"
  | .str s => s
  | .int n => toString n

/-- JSON values, as produced by `_dump_content` and fed to `json.dumps`. -/
inductive Json where
  | null
  | str (s : String)
  | arr (xs : List Json)
  | obj (kvs : List (String × Json))

/-- Escape one character the way `json.dumps` does for the characters that
can occur here. -/
def escChar (c : Char) : String :=
  if c = '"' then "\\\""
  else if c = '\\' then "\\\\"
  else if c = '\n' then "\\n"
  else if c = '\t' then "\\t"
  else if c = '\r' then "\\r"
  else String.singleton c

/-- JSON string quoting (model of how `json.dumps` renders a string). -/
def jquote (s : String) : String :=
  "\"" ++ String.join (s.data.map escChar) ++ "\""

mutual

/-- Model of `json.dumps` with its default separators. -/
def Json.dumps : Json → String
  | .null => "null"
  | .str s => jquote s
  | .arr xs => "[" ++ dumpsArr xs ++ "]"
  | .obj kvs => "\x7b" ++ dumpsObj kvs ++ "\x7d"

/-- Render the elements of a JSON array, separated by `", "`. -/
def dumpsArr : List Json → String
  | [] => ""
  | [x] => Json.dumps x
  | x :: y :: rest => Json.dumps x ++ ", " ++ dumpsArr (y :: rest)

/-- Render the members of a JSON object, separated by `", "`. -/
def dumpsObj : List (String × Json) → String
  | [] => ""
  | [(k, v)] => jquote k ++ ": " ++ Json.dumps v
  | (k, v) :: m :: rest => jquote k ++ ": " ++ Json.dumps v ++ ", " ++ dumpsObj (m :: rest)

end

/-- The `source` dictionary of an image content block. -/
structure Source where
  stype : Option String := Option.none
  media_type : Option String := Option.none
  data : Value := Value.none
deriving DecidableEq, Repr

/-- One element of a structured message-content list; `btype` is the
block's `"type"` entry, absent entries are `Option.none`. -/
structure Block where
  btype : Option String := Option.none
  text : Option String := Option.none
  source : Option Source := Option.none
deriving DecidableEq, Repr

/-- Message content as `_dump_content` receives it: either a plain string
or a structured list of blocks. -/
inductive Content where
  | str (s : String)
  | blocks (items : List Block)
deriving DecidableEq, Repr

/-- An optional string as a JSON value (`None` becomes `null`). -/
def jsonOfOptStr : Option String → Json
  | Option.none => Json.null
  | some s => Json.str s

/-- The JSON object built for a `text` block in `_dump_content`. -/
def textJson (it : Block) : Json :=
  Json.obj [("type", Json.str "text"), ("text", jsonOfOptStr it.text)]

/-- The JSON object built for an `image` block in `_dump_content`. -/
def imageJson (src : Source) : Json :=
  Json.obj [("type", Json.str "image"),
    ("source", Json.obj [("type", jsonOfOptStr src.stype),
      ("media_type", jsonOfOptStr src.media_type),
      ("data", Json.str (pyStr src.data))])]

/-- The loop of `_dump_content` over a structured content list.  An image
block without a `source` raises (`None.get(...)` → `AttributeError`),
modelled by `Except.error`. -/
def dumpItems : List Block → Except Unit (List Json)
  | [] => .ok []
  | item :: rest =>
    if item.btype = some "text" then
      match dumpItems rest with
      | .ok tl => .ok (textJson item :: tl)
      | .error e => .error e
    else if item.btype = some "image" then
      match item.source with
      | Option.none => .error ()
      | some src =>
        match dumpItems rest with
        | .ok tl => .ok (imageJson src :: tl)
        | .error e => .error e
    else dumpItems rest

/-- `_dump_content`: a plain string is returned verbatim; a structured
list is filtered to text/image blocks and serialized with `json.dumps`. -/
def dump_content : Content → Except Unit String
  | .str s => .ok s
  | .blocks items =>
    match dumpItems items with
    | .ok js => .ok (Json.dumps (Json.arr js))
    | .error e => .error e

/-- Span-attribute keys.  The source builds dotted strings from the shared
`SpanAttributes` constants (with f-string indices); since that map is
injective we use an inductive key type, rendered by `attrName`. -/
inductive AttrKey where
  | vendor
  | requestType
  | requestModel
  | requestMaxTokens
  | temperature
  | topP
  | frequencyPenalty
  | presencePenalty
  | promptUser (i : Nat)
  | completionFinishReason (i : Nat)
  | completionContent (i : Nat)
  | usagePromptTokens
  | usageCompletionTokens
  | usageTotalTokens
  | responseModel
deriving DecidableEq, Repr

/-- The dotted wire name of each attribute key (spec section 6). -/
def attrName : AttrKey → String
  | .vendor => "llm.vendor"
  | .requestType => "llm.request.type"
  | .requestModel => "llm.request.model"
  | .requestMaxTokens => "llm.request.max_tokens"
  | .temperature => "llm.temperature"
  | .topP => "llm.top_p"
  | .frequencyPenalty => "llm.frequency_penalty"
  | .presencePenalty => "llm.presence_penalty"
  | .promptUser i => "llm.prompts." ++ toString i ++ ".user"
  | .completionFinishReason i => "llm.completions." ++ toString i ++ ".finish_reason"
  | .completionContent i => "llm.completions." ++ toString i ++ ".content"
  | .usagePromptTokens => "llm.usage.prompt_tokens"
  | .usageCompletionTokens => "llm.usage.completion_tokens"
  | .usageTotalTokens => "llm.usage.total_tokens"
  | .responseModel => "llm.response.model"

/-- The span as the shim observes it: the attribute writes in order, the
status set by the shim (`some true` = OK), and whether the scoped
acquisition has closed it. -/
structure Span where
  attrs : List (AttrKey × Value) := []
  status : Option Bool := Option.none
  ended : Bool := false
deriving DecidableEq, Repr

/-- `_set_span_attribute`: write only when the value is not `None` and
not equal (by Python `!=`) to the empty string. -/
def set_span_attribute (span : Span) (name : AttrKey) (value : Value) : Span :=
  if value = Value.none then span
  else if value = Value.str "" then span
  else { span with attrs := span.attrs ++ [(name, value)] }

/-- Model of Python `str.lower()` (character-wise ASCII lowering). -/
def pyLower (s : String) : String := String.mk (s.data.map Char.toLower)

/-- `should_send_prompts`: `(os.getenv("TRACELOOP_TRACE_CONTENT") or
"true").lower() == "true" or context override`.  `env` is the variable's
value (`Option.none` when unset); a set-but-empty variable is falsy in
Python, so `or "true"` replaces it as well. -/
def should_send_prompts (env : Option String) (ov : Bool) : Bool :=
  pyLower (match env with
   | Option.none => "true"
   | some s => if s = "" then "true" else s) = "true" || ov

/-- One request message (`{"content": ...}`). -/
structure Message where
  content : Content
deriving DecidableEq, Repr

/-- The keyword arguments of an intercepted call, as read by the shim.
Absent keys are `Option.none` (`kwargs.get` semantics). -/
structure Request where
  model : Option Value := Option.none
  max_tokens_to_sample : Option Value := Option.none
  temperature : Option Value := Option.none
  top_p : Option Value := Option.none
  frequency_penalty : Option Value := Option.none
  presence_penalty : Option Value := Option.none
  prompt : Option String := Option.none
  messages : Option (List Message) := Option.none
deriving DecidableEq, Repr

/-- `kwargs.get(k)` as a `Value` (`None` when the key is absent). -/
def optVal : Option Value → Value
  | Option.none => Value.none
  | some v => v

/-- An optional string as a `Value` (`None` when absent). -/
def optStrVal : Option String → Value
  | Option.none => Value.none
  | some s => Value.str s

/-- The `enumerate` loop of `_set_input_attributes` over `messages`.  A
`_dump_content` failure raises out of the loop (caught in `_wrap`), so the
partially written span is kept. -/
def writeMessages (span : Span) : Nat → List Message → Span
  | _, [] => span
  | i, m :: rest =>
    match dump_content m.content with
    | .ok s => writeMessages (set_span_attribute span (.promptUser i) (.str s)) (i + 1) rest
    | .error _ => span

/-- `_set_input_attributes`. -/
def set_input_attributes (env : Option String) (ov : Bool) (span : Span)
    (kwargs : Request) : Span :=
  let s1 := set_span_attribute span .requestModel (optVal kwargs.model)
  let s2 := set_span_attribute s1 .requestMaxTokens (optVal kwargs.max_tokens_to_sample)
  let s3 := set_span_attribute s2 .temperature (optVal kwargs.temperature)
  let s4 := set_span_attribute s3 .topP (optVal kwargs.top_p)
  let s5 := set_span_attribute s4 .frequencyPenalty (optVal kwargs.frequency_penalty)
  let s6 := set_span_attribute s5 .presencePenalty (optVal kwargs.presence_penalty)
  if should_send_prompts env ov then
    match kwargs.prompt with
    | some p => set_span_attribute s6 (.promptUser 0) (.str p)
    | Option.none =>
      match kwargs.messages with
      | some ms => writeMessages s6 0 ms
      | Option.none => s6
  else s6

/-- A response `usage` object (`input_tokens` / `output_tokens`). -/
structure Usage where
  input_tokens : Int
  output_tokens : Int
deriving DecidableEq, Repr

/-- One element of a response `content` list (attribute access `.text`). -/
structure ContentBlock where
  text : String
deriving DecidableEq, Repr

/-- A response object after `__dict__` normalization; absent keys are
`Option.none`. -/
structure Response where
  model : Option Value := Option.none
  completion : Option String := Option.none
  content : Option (List ContentBlock) := Option.none
  stop_reason : Option String := Option.none
  usage : Option Usage := Option.none
deriving DecidableEq, Repr

/-- The enumerate loop of `_set_span_completions` over `content`. -/
def writeContents (span : Span) : Nat → List ContentBlock → Span
  | _, [] => span
  | i, c :: rest =>
    writeContents (set_span_attribute span (.completionContent i) (.str c.text)) (i + 1) rest

/-- The `elif response.get("content"):` arm of `_set_span_completions`
(an absent or empty list writes nothing). -/
def completionsContentCase (span : Span) : Option (List ContentBlock) → Span
  | some cs => writeContents span 0 cs
  | Option.none => span

/-- `_set_span_completions`: finish reason first, then the legacy
`completion` text if truthy, otherwise the `content` list. -/
def set_span_completions (span : Span) (response : Response) : Span :=
  let s1 := set_span_attribute span (.completionFinishReason 0) (optStrVal response.stop_reason)
  match response.completion with
  | some c => if c = "" then completionsContentCase s1 response.content
              else set_span_attribute s1 (.completionContent 0) (.str c)
  | Option.none => completionsContentCase s1 response.content

/-- The `elif request.get("messages"):` arm of the prompt-token fallback
(the sum comprehension over message contents). -/
def countMessages (ct : Content → Int) : List Message → Int
  | [] => 0
  | m :: rest => ct m.content + countMessages ct rest

/-- Prompt-token fallback when the `prompt` key is falsy or absent. -/
def fallbackPromptMessages (ct : Content → Int) : Option (List Message) → Int
  | some ms => if ms = [] then 0 else countMessages ct ms
  | Option.none => 0

/-- The `prompt_tokens` computation of `_set_token_usage` (`if
request.get("prompt"): ... elif request.get("messages"): ... else 0`). -/
def fallbackPromptTokens (ct : Content → Int) (request : Request) : Int :=
  match request.prompt with
  | some p => if p = "" then fallbackPromptMessages ct request.messages else ct (.str p)
  | Option.none => fallbackPromptMessages ct request.messages

/-- Completion-token fallback from the `content` list (first block's
`.text`, or 0 when the list is absent or empty). -/
def fallbackCompletionContent (ct : Content → Int) : Option (List ContentBlock) → Int
  | some (c :: _) => ct (.str c.text)
  | _ => 0

/-- The `completion_tokens` computation of `_set_token_usage`. -/
def fallbackCompletionTokens (ct : Content → Int) (response : Response) : Int :=
  match response.completion with
  | some c => if c = "" then fallbackCompletionContent ct response.content else ct (.str c)
  | Option.none => fallbackCompletionContent ct response.content

/-- `_set_token_usage`: count tokens with the client's counter `ct` and
write all three usage attributes. -/
def set_token_usage (ct : Content → Int) (span : Span) (request : Request)
    (response : Response) : Span :=
  let prompt_tokens := fallbackPromptTokens ct request
  let completion_tokens := fallbackCompletionTokens ct response
  let total_tokens := prompt_tokens + completion_tokens
  let s1 := set_span_attribute span .usagePromptTokens (.int prompt_tokens)
  let s2 := set_span_attribute s1 .usageCompletionTokens (.int completion_tokens)
  set_span_attribute s2 .usageTotalTokens (.int total_tokens)

/-- `_set_response_attributes`: response model, then the native usage
object when present, then (under the content-tracing gate) completions. -/
def set_response_attributes (env : Option String) (ov : Bool) (span : Span)
    (response : Response) : Span :=
  let s1 := set_span_attribute span .responseModel (optVal response.model)
  let s2 :=
    match response.usage with
    | some u =>
      let a := set_span_attribute s1 .usagePromptTokens (.int u.input_tokens)
      let b := set_span_attribute a .usageCompletionTokens (.int u.output_tokens)
      set_span_attribute b .usageTotalTokens (.int (u.input_tokens + u.output_tokens))
    | Option.none => s1
  if should_send_prompts env ov then set_span_completions s2 response else s2

/-- A value returned by the wrapped callable: either an SDK response
object (always truthy) or some other Python scalar. -/
inductive PyResult where
  | obj (r : Response)
  | prim (v : Value)
deriving DecidableEq, Repr

/-- Python truthiness of the wrapped call's return value. -/
def resultTruthy : PyResult → Bool
  | .obj _ => true
  | .prim v => pyTruthy v

/-- The ambient execution context and tracer state a call runs under:
the suppress-instrumentation flag, the content-tracing environment
variable, the content-tracing context override, and whether the started
span is recording. -/
structure Ctx where
  suppress : Bool
  env : Option String
  contentOverride : Bool
  recording : Bool
deriving DecidableEq, Repr

/-- The observable outcome of one `_wrap` invocation: whether a span was
created, its final state, and the value returned (or exception raised)
to the caller. -/
structure WrapOut where
  spanCreated : Bool
  span : Span
  result : Except String PyResult

/-- The span state when no span is created at all. -/
def noSpan : Span := {}

/-- The span as `start_as_current_span` opens it, with the two fixed
vendor / request-type attributes. -/
def initialSpan : Span :=
  { attrs := [(.vendor, .str "Anthropic"), (.requestType, .str "completion")],
    status := Option.none, ended := false }

/-- The guarded response block of `_wrap`: `_set_response_attributes`
followed by `_set_token_usage`, with any exception caught (a truthy
non-object response makes `response.__dict__` raise immediately, leaving
the span unchanged). -/
def responsePhase (ct : Content → Int) (env : Option String) (ov : Bool)
    (span : Span) (kwargs : Request) : PyResult → Span
  | .obj r => set_token_usage ct (set_response_attributes env ov span r) kwargs r
  | .prim _ => span

/-- `_wrap`: suppression check, span opening, guarded input attributes,
the unguarded delegate call, guarded response processing, OK status for a
truthy response, and pass-through of the return value or exception.  The
delegate call's outcome is the `wrapped` argument. -/
def wrap (ct : Content → Int) (ctx : Ctx) (wrapped : Except String PyResult)
    (kwargs : Request) : WrapOut :=
  if ctx.suppress then { spanCreated := false, span := noSpan, result := wrapped }
  else
    let span0 := initialSpan
    let span1 := if ctx.recording then
        set_input_attributes ctx.env ctx.contentOverride span0 kwargs
      else span0
    match wrapped with
    | .error e =>
      { spanCreated := true, span := { span1 with ended := true }, result := .error e }
    | .ok response =>
      if resultTruthy response then
        let span2 := if ctx.recording then
            responsePhase ct ctx.env ctx.contentOverride span1 kwargs response
          else span1
        let span3 := if ctx.recording then { span2 with status := some true } else span2
        { spanCreated := true, span := { span3 with ended := true }, result := .ok response }
      else
        { spanCreated := true, span := { span1 with ended := true }, result := .ok response }

/-- One entry of `WRAPPED_METHODS`. -/
structure WrappedMethod where
  package : String
  object : String
  method : String
  span_name : String
deriving DecidableEq, Repr

/-- The Target Registry (`WRAPPED_METHODS`). -/
def WRAPPED_METHODS : List WrappedMethod :=
  [{ package := "anthropic.resources.completions", object := "Completions",
     method := "create", span_name := "anthropic.completion" },
   { package := "anthropic.resources.messages", object := "Messages",
     method := "create", span_name := "anthropic.completion" }]

/-- A patching target: (module path, class name, method name). -/
abbrev TargetKey := String × String × String

/-- The target `_instrument` patches for a registry entry
(`wrap_function_wrapper(package, f"{object}.{method}", ...)`). -/
def installKey (m : WrappedMethod) : TargetKey := (m.package, m.object, m.method)

/-- The target `_uninstrument` passes to `unwrap`: the module path is the
hard-coded string `"anthropic.resources.completions"`, not the entry's
`package` field. -/
def uninstallKey (m : WrappedMethod) : TargetKey :=
  ("anthropic.resources.completions", m.object, m.method)

/-- The set of currently wrapped (patched) methods of the process. -/
structure PatchState where
  wrappedKeys : List TargetKey
deriving DecidableEq, Repr

/-- Install a wrapper at a target (`wrap_function_wrapper`). -/
def wrapAt (s : PatchState) (k : TargetKey) : PatchState :=
  { wrappedKeys := s.wrappedKeys ++ [k] }

/-- Model of the external `unwrap` utility: restore the original method
at the named target when it is wrapped, otherwise do nothing. -/
def unwrapAt (s : PatchState) (k : TargetKey) : PatchState :=
  { wrappedKeys := s.wrappedKeys.filter (fun x => !(x = k)) }

/-- `AnthropicInstrumentor._instrument`: wrap every registry entry at its
own package/object/method. -/
def instrument (s : PatchState) : PatchState :=
  WRAPPED_METHODS.foldl (fun s m => wrapAt s (installKey m)) s

/-- `AnthropicInstrumentor._uninstrument`: unwrap every registry entry,
but always under the `anthropic.resources.completions` module path. -/
def uninstrument (s : PatchState) : PatchState :=
  WRAPPED_METHODS.foldl (fun s m => unwrapAt s (uninstallKey m)) s

/-- Whether a target currently carries the instrumentation wrapper. -/
def isWrapped (s : PatchState) (k : TargetKey) : Bool := k ∈ s.wrappedKeys

/-- The last value written for a key, i.e. the value an attribute map
holds after all writes (later writes overwrite earlier ones). -/
def lookupLast (span : Span) (k : AttrKey) : Option Value :=
  ((span.attrs.filter (fun p => p.1 = k)).getLast?).map (fun p => p.2)

/-- A plain tracing context: not suppressed, recording, environment
variable unset, no content-tracing override. -/
def plainCtx : Ctx :=
  { suppress := false
    env := Option.none
    contentOverride := false
    recording := true }

/-- A concrete messages-API response with a native usage object. -/
def exRespNative : Response :=
  { model := some (.str "claude-2")
    content := some [{ text := "hello" }]
    stop_reason := some "end_turn"
    usage := some { input_tokens := 3, output_tokens := 5 } }

/-- A concrete messages-API request with one plain-string message. -/
def exReqMessages : Request :=
  { model := some (.str "claude-2")
    messages := some [{ content := Content.str "hi" }] }

/-- A concrete legacy-style response that also carries native usage. -/
def exRespLegacyNative : Response :=
  { completion := some "ok"
    usage := some { input_tokens := 3, output_tokens := 5 } }

/-- A concrete image-block source. -/
def exImageSource : Source :=
  { stype := some "base64"
    media_type := some "image/png"
    data := .int 7 }

/-- A concrete structured content list: a text block, an image block and
a block of another type. -/
def exBlocks : List Block :=
  [{ btype := some "text", text := some "hello" },
   { btype := some "image", source := some exImageSource },
   { btype := some "tool_use" }]

/-- A span transformation that only appends attribute pairs, all of whose
keys satisfy `P`, and touches nothing else. -/
def AppendsOnly (f : Span → Span) (P : AttrKey → Prop) : Prop :=
  ∀ span, ∃ e, f span = { span with attrs := span.attrs ++ e } ∧ ∀ p ∈ e, P p.1

/-- The keys `_set_input_attributes` can write. -/
def isInputKey : AttrKey → Bool
  | .requestModel => true
  | .requestMaxTokens => true
  | .temperature => true
  | .topP => true
  | .frequencyPenalty => true
  | .presencePenalty => true
  | .promptUser _ => true
  | _ => false

/-- The keys `_set_span_completions` can write. -/
def isCompletionKey : AttrKey → Bool
  | .completionContent _ => true
  | .completionFinishReason _ => true
  | _ => false

/-- The contribution of a single content block to the serialized list,
as the spec describes the filtering rule: a `text` block keeps its type
and text, an `image` block keeps its source type, media type and
string-coerced data, every other block is dropped. -/
def blockJson (it : Block) : Option Json :=
  if it.btype = some "text" then some (textJson it)
  else if it.btype = some "image" then
    match it.source with
    | some src => some (imageJson src)
    | Option.none => Option.none
  else Option.none

theorem appendsOnly_id (P : AttrKey → Prop) : AppendsOnly (fun s => s) P := by
  intro span
  exact ⟨[], by simp, by simp⟩

theorem appendsOnly_mono {f : Span → Span} {P Q : AttrKey → Prop}
    (hPQ : ∀ k, P k → Q k) (hf : AppendsOnly f P) : AppendsOnly f Q := by
  intro span
  obtain ⟨e, he, hkeys⟩ := hf span
  exact ⟨e, he, fun p hp => hPQ _ (hkeys p hp)⟩

theorem appendsOnly_comp {f g : Span → Span} {P : AttrKey → Prop}
    (hf : AppendsOnly f P) (hg : AppendsOnly g P) :
    AppendsOnly (fun s => g (f s)) P := by
  intro span
  obtain ⟨e1, he1, hk1⟩ := hf span
  obtain ⟨e2, he2, hk2⟩ := hg (f span)
  refine ⟨e1 ++ e2, ?_, ?_⟩
  · show g (f span) = _
    rw [he2, he1]
    simp [List.append_assoc]
  · intro p hp
    rcases List.mem_append.1 hp with h | h
    · exact hk1 p h
    · exact hk2 p h

theorem appendsOnly_set_span_attribute (k : AttrKey) (v : Value) :
    AppendsOnly (fun s => set_span_attribute s k v) (fun k2 => k2 = k) := by
  intro span
  unfold set_span_attribute
  by_cases h0 : v = Value.none
  · exact ⟨[], by simp [h0], by simp⟩
  · by_cases h1 : v = Value.str ""
    · exact ⟨[], by simp [h0, h1], by simp⟩
    · exact ⟨[(k, v)], by simp [h0, h1], by simp⟩

theorem appendsOnly_status {f : Span → Span} {P : AttrKey → Prop}
    (hf : AppendsOnly f P) (span : Span) : (f span).status = span.status := by
  obtain ⟨e, he, -⟩ := hf span
  rw [he]

theorem appendsOnly_ended {f : Span → Span} {P : AttrKey → Prop}
    (hf : AppendsOnly f P) (span : Span) : (f span).ended = span.ended := by
  obtain ⟨e, he, -⟩ := hf span
  rw [he]

theorem appendsOnly_mem {f : Span → Span} {P : AttrKey → Prop}
    (hf : AppendsOnly f P) (span : Span) {p : AttrKey × Value}
    (hp : p ∈ span.attrs) : p ∈ (f span).attrs := by
  obtain ⟨e, he, -⟩ := hf span
  rw [he]
  exact List.mem_append.2 (Or.inl hp)

theorem appendsOnly_lookupLast {f : Span → Span} {P : AttrKey → Prop}
    (hf : AppendsOnly f P) (span : Span) {k : AttrKey} (hk : ¬ P k) :
    lookupLast (f span) k = lookupLast span k := by
  obtain ⟨e, he, hkeys⟩ := hf span
  rw [he]
  unfold lookupLast
  have hnil : e.filter (fun p => decide (p.1 = k)) = [] := by
    refine List.filter_eq_nil_iff.2 ?_
    intro p hp
    simp only [decide_eq_true_eq]
    intro hpk
    exact hk (hpk ▸ hkeys p hp)
  simp [List.filter_append, hnil]

theorem appendsOnly_writeMessages (ms : List Message) :
    ∀ i, AppendsOnly (fun s => writeMessages s i ms)
      (fun k => isInputKey k = true) := by
  induction ms with
  | nil => intro i; exact appendsOnly_id _
  | cons m rest ih =>
    intro i
    intro span
    unfold writeMessages
    cases hdc : dump_content m.content with
    | ok s =>
      have h1 := appendsOnly_mono (P := fun k2 => k2 = AttrKey.promptUser i)
        (Q := fun k => isInputKey k = true)
        (fun k hk => by rw [hk]; rfl)
        (appendsOnly_set_span_attribute (.promptUser i) (.str s))
      exact appendsOnly_comp h1 (ih (i + 1)) span
    | error e => exact ⟨[], by simp, by simp⟩

theorem appendsOnly_set_input_attributes (env : Option String) (ov : Bool)
    (kwargs : Request) :
    AppendsOnly (fun s => set_input_attributes env ov s kwargs)
      (fun k => isInputKey k = true) := by
  unfold set_input_attributes
  have base : ∀ (k : AttrKey), isInputKey k = true → ∀ (v : Value),
      AppendsOnly (fun s => set_span_attribute s k v)
        (fun k2 => isInputKey k2 = true) := by
    intro k hk v
    exact appendsOnly_mono (P := fun k2 => k2 = k)
      (fun k2 hk2 => by rw [hk2]; exact hk)
      (appendsOnly_set_span_attribute k v)
  have h6 : AppendsOnly
      (fun s => set_span_attribute
        (set_span_attribute
          (set_span_attribute
            (set_span_attribute
              (set_span_attribute
                (set_span_attribute s .requestModel (optVal kwargs.model))
                .requestMaxTokens (optVal kwargs.max_tokens_to_sample))
              .temperature (optVal kwargs.temperature))
            .topP (optVal kwargs.top_p))
          .frequencyPenalty (optVal kwargs.frequency_penalty))
        .presencePenalty (optVal kwargs.presence_penalty))
      (fun k => isInputKey k = true) := by
    refine appendsOnly_comp (appendsOnly_comp (appendsOnly_comp (appendsOnly_comp
      (appendsOnly_comp (base .requestModel rfl _) (base .requestMaxTokens rfl _))
      (base .temperature rfl _)) (base .topP rfl _))
      (base .frequencyPenalty rfl _)) (base .presencePenalty rfl _)
  by_cases hsend : should_send_prompts env ov
  · simp only [hsend, if_true]
    cases hp : kwargs.prompt with
    | some p =>
      simp only [hp]
      exact appendsOnly_comp h6 (base (.promptUser 0) rfl _)
    | none =>
      simp only [hp]
      cases hm : kwargs.messages with
      | some ms =>
        simp only [hm]
        exact appendsOnly_comp h6 (appendsOnly_writeMessages ms 0)
      | none =>
        simp only [hm]
        exact h6
  · simp only [hsend, if_false]
    exact h6

theorem appendsOnly_writeContents (cs : List ContentBlock) :
    ∀ i, AppendsOnly (fun s => writeContents s i cs)
      (fun k => isCompletionKey k = true) := by
  induction cs with
  | nil => intro i; exact appendsOnly_id _
  | cons c rest ih =>
    intro i
    have h1 := appendsOnly_mono (P := fun k2 => k2 = AttrKey.completionContent i)
      (Q := fun k => isCompletionKey k = true)
      (fun k hk => by rw [hk]; rfl)
      (appendsOnly_set_span_attribute (.completionContent i) (.str c.text))
    exact appendsOnly_comp h1 (ih (i + 1))

theorem appendsOnly_completionsContentCase (cso : Option (List ContentBlock)) :
    AppendsOnly (fun s => completionsContentCase s cso)
      (fun k => isCompletionKey k = true) := by
  cases cso with
  | some cs => exact appendsOnly_writeContents cs 0
  | none => exact appendsOnly_id _

theorem appendsOnly_set_span_completions (response : Response) :
    AppendsOnly (fun s => set_span_completions s response)
      (fun k => isCompletionKey k = true) := by
  unfold set_span_completions
  have h1 := appendsOnly_mono (P := fun k2 => k2 = AttrKey.completionFinishReason 0)
    (Q := fun k => isCompletionKey k = true)
    (fun k hk => by rw [hk]; rfl)
    (appendsOnly_set_span_attribute (.completionFinishReason 0)
      (optStrVal response.stop_reason))
  cases hc : response.completion with
  | some c =>
    by_cases hce : c = ""
    · simp only [hce, if_true]
      exact appendsOnly_comp h1 (appendsOnly_completionsContentCase response.content)
    · simp only [hce, if_false]
      have h2 := appendsOnly_mono (P := fun k2 => k2 = AttrKey.completionContent 0)
        (Q := fun k => isCompletionKey k = true)
        (fun k hk => by rw [hk]; rfl)
        (appendsOnly_set_span_attribute (.completionContent 0) (.str c))
      exact appendsOnly_comp h1 h2
  | none => exact appendsOnly_comp h1 (appendsOnly_completionsContentCase response.content)

/-- `_set_token_usage` always appends exactly the three usage attributes,
in order, with the fallback-computed integer values. -/
theorem set_token_usage_attrs (ct : Content → Int) (span : Span) (request : Request)
    (response : Response) :
    set_token_usage ct span request response =
      { span with attrs := span.attrs ++
          [(.usagePromptTokens, .int (fallbackPromptTokens ct request)),
           (.usageCompletionTokens, .int (fallbackCompletionTokens ct response)),
           (.usageTotalTokens, .int (fallbackPromptTokens ct request +
              fallbackCompletionTokens ct response))] } := by
  unfold set_token_usage set_span_attribute
  simp

/-- Writes with integer values are never filtered. -/
theorem set_span_attribute_int (span : Span) (k : AttrKey) (n : Int) :
    set_span_attribute span k (.int n) =
      { span with attrs := span.attrs ++ [(k, .int n)] } := by
  unfold set_span_attribute
  simp

/-- Last-write-wins lookup: when the segment after a `(k, v)` entry has no
further `k` entry, `lookupLast` returns `v`. -/
theorem lookupLast_append (xs ys : List (AttrKey × Value)) (k : AttrKey) (v : Value)
    (st : Option Bool) (en : Bool) (h : ∀ p ∈ ys, p.1 ≠ k) :
    lookupLast { attrs := xs ++ (k, v) :: ys, status := st, ended := en } k = some v := by
  unfold lookupLast
  have hys : ys.filter (fun p => decide (p.1 = k)) = [] := by
    refine List.filter_eq_nil_iff.2 ?_
    intro p hp
    simp only [decide_eq_true_eq]
    exact h p hp
  simp only [List.filter_append, List.filter_cons, decide_eq_true_eq]
  rw [if_pos trivial, hys]
  rw [show xs.filter (fun p => decide (p.1 = k)) ++ (k, v) :: [] =
    xs.filter (fun p => decide (p.1 = k)) ++ [(k, v)] from rfl]
  rw [List.getLast?_concat]
  rfl

/-- An empty filter means `lookupLast` finds nothing. -/
theorem lookupLast_eq_none (span : Span) (k : AttrKey)
    (h : ∀ p ∈ span.attrs, p.1 ≠ k) : lookupLast span k = Option.none := by
  unfold lookupLast
  have : span.attrs.filter (fun p => decide (p.1 = k)) = [] := by
    refine List.filter_eq_nil_iff.2 ?_
    intro p hp
    simp only [decide_eq_true_eq]
    exact h p hp
  rw [this]
  rfl

/-- Attribute-phase writes before the delegate call leave every
non-input, non-initial key unset. -/
theorem preCall_lookupLast_none (rec : Bool) (env : Option String) (ov : Bool)
    (kwargs : Request) (k : AttrKey) (hk : isInputKey k = false)
    (hv : k ≠ .vendor) (hr : k ≠ .requestType) :
    lookupLast (if rec then set_input_attributes env ov initialSpan kwargs
      else initialSpan) k = Option.none := by
  have hbase : lookupLast initialSpan k = Option.none := by
    refine lookupLast_eq_none _ _ ?_
    intro p hp
    simp only [initialSpan, List.mem_cons, List.not_mem_nil, or_false] at hp
    rcases hp with h | h
    · rw [h]
      exact fun he => hv he.symm
    · rw [h]
      exact fun he => hr he.symm
  cases rec with
  | false => simpa using hbase
  | true =>
    rw [if_pos rfl]
    have := appendsOnly_lookupLast (appendsOnly_set_input_attributes env ov kwargs)
      initialSpan (k := k) (by simp [hk])
    simp only [] at this
    rw [this]
    exact hbase

/-- The pre-call span phase never sets a status. -/
theorem preCall_status (rec : Bool) (env : Option String) (ov : Bool) (kwargs : Request) :
    (if rec then set_input_attributes env ov initialSpan kwargs
      else initialSpan).status = Option.none := by
  cases rec with
  | false => rfl
  | true =>
    rw [if_pos rfl]
    have := appendsOnly_status (appendsOnly_set_input_attributes env ov kwargs) initialSpan
    simpa using this

/-- Reading back the three usage attributes appended at the end of an
attribute list: each key's last write is the appended one. -/
theorem lookupLast_usage_triple (xs : List (AttrKey × Value)) (st : Option Bool)
    (en : Bool) (p c t : Value) :
    lookupLast { attrs := xs ++ [(.usagePromptTokens, p), (.usageCompletionTokens, c),
        (.usageTotalTokens, t)], status := st, ended := en } .usagePromptTokens = some p ∧
    lookupLast { attrs := xs ++ [(.usagePromptTokens, p), (.usageCompletionTokens, c),
        (.usageTotalTokens, t)], status := st, ended := en } .usageCompletionTokens = some c ∧
    lookupLast { attrs := xs ++ [(.usagePromptTokens, p), (.usageCompletionTokens, c),
        (.usageTotalTokens, t)], status := st, ended := en } .usageTotalTokens = some t := by
  refine ⟨?_, ?_, ?_⟩
  · refine lookupLast_append xs [(.usageCompletionTokens, c), (.usageTotalTokens, t)]
      .usagePromptTokens p st en ?_
    intro q hq
    simp only [List.mem_cons, List.not_mem_nil, or_false] at hq
    rcases hq with h | h <;> rw [h] <;> simp
  · have h2 := lookupLast_append (xs ++ [(.usagePromptTokens, p)]) [(.usageTotalTokens, t)]
      .usageCompletionTokens c st en ?_
    · simpa [List.append_assoc] using h2
    · intro q hq
      simp only [List.mem_singleton] at hq
      rw [hq]
      simp
  · have h3 := lookupLast_append (xs ++ [(.usagePromptTokens, p), (.usageCompletionTokens, c)])
      [] .usageTotalTokens t st en ?_
    · simpa [List.append_assoc] using h3
    · intro q hq
      exact absurd hq (List.not_mem_nil q)

/-- `writeContents` starting at index `j` only writes completion-content
keys with index at least `j`. -/
theorem appendsOnly_writeContents_ge (cs : List ContentBlock) :
    ∀ j, AppendsOnly (fun s => writeContents s j cs)
      (fun k => ∃ m, j ≤ m ∧ k = AttrKey.completionContent m) := by
  induction cs with
  | nil => intro j; exact appendsOnly_id _
  | cons c rest ih =>
    intro j
    have h1 := appendsOnly_mono (P := fun k2 => k2 = AttrKey.completionContent j)
      (Q := fun k => ∃ m, j ≤ m ∧ k = AttrKey.completionContent m)
      (fun k hk => ⟨j, le_refl j, hk⟩)
      (appendsOnly_set_span_attribute (.completionContent j) (.str c.text))
    have h2 := appendsOnly_mono
      (P := fun k => ∃ m, j + 1 ≤ m ∧ k = AttrKey.completionContent m)
      (Q := fun k => ∃ m, j ≤ m ∧ k = AttrKey.completionContent m)
      (fun k hk => by obtain ⟨m, hm, hk⟩ := hk; exact ⟨m, by omega, hk⟩)
      (ih (j + 1))
    exact appendsOnly_comp h1 h2

/-- When every block text is non-empty, `writeContents` writes the
`i`-th block's text as the last value of completion-content key `j + i`. -/
theorem writeContents_lookupLast (cs : List ContentBlock)
    (htxt : ∀ b ∈ cs, b.text ≠ "") :
    ∀ j (span : Span) i (h : i < cs.length),
      lookupLast (writeContents span j cs) (.completionContent (j + i)) =
        some (.str (cs.get ⟨i, h⟩).text) := by
  induction cs with
  | nil =>
    intro j span i h
    exact absurd h (Nat.not_lt_zero i)
  | cons c rest ih =>
    intro j span i h
    have hc : c.text ≠ "" := htxt c (List.mem_cons_self c rest)
    have hset : set_span_attribute span (.completionContent j) (.str c.text) =
        { span with attrs := span.attrs ++ [(.completionContent j, .str c.text)] } := by
      unfold set_span_attribute
      simp [hc]
    cases i with
    | zero =>
      show lookupLast (writeContents (set_span_attribute span (.completionContent j)
        (.str c.text)) (j + 1) rest) (.completionContent (j + 0)) = some (.str c.text)
      have hnot : ¬ (∃ m, j + 1 ≤ m ∧
          AttrKey.completionContent (j + 0) = AttrKey.completionContent m) := by
        rintro ⟨m, hm, he⟩
        have : j + 0 = m := by
          cases he
          rfl
        omega
      have hstep := appendsOnly_lookupLast (appendsOnly_writeContents_ge rest (j + 1))
        (set_span_attribute span (.completionContent j) (.str c.text)) hnot
      simp only [] at hstep
      rw [hstep, hset]
      have := lookupLast_append span.attrs [] (.completionContent (j + 0)) (.str c.text)
        span.status span.ended (fun q hq => absurd hq (List.not_mem_nil q))
      simpa using this
    | succ i2 =>
      have h2 : i2 < rest.length := by
        simpa [Nat.succ_lt_succ_iff] using h
      have := ih (fun b hb => htxt b (List.mem_cons_of_mem c hb)) (j + 1)
        (set_span_attribute span (.completionContent j) (.str c.text)) i2 h2
      show lookupLast (writeContents (set_span_attribute span (.completionContent j)
        (.str c.text)) (j + 1) rest) (.completionContent (j + (i2 + 1))) =
        some (.str ((c :: rest).get ⟨i2 + 1, h⟩).text)
      have harith : j + (i2 + 1) = (j + 1) + i2 := by omega
      rw [harith]
      exact this

/-- When the response carries a native usage object, the three usage
attributes computed from it are written by `_set_response_attributes`. -/
theorem set_response_attributes_native_mem (env : Option String) (ov : Bool)
    (span : Span) (r : Response) (u : Usage) (hu : r.usage = some u) :
    (AttrKey.usagePromptTokens, Value.int u.input_tokens) ∈
      (set_response_attributes env ov span r).attrs ∧
    (AttrKey.usageCompletionTokens, Value.int u.output_tokens) ∈
      (set_response_attributes env ov span r).attrs ∧
    (AttrKey.usageTotalTokens, Value.int (u.input_tokens + u.output_tokens)) ∈
      (set_response_attributes env ov span r).attrs := by
  simp only [set_response_attributes, hu]
  rw [set_span_attribute_int, set_span_attribute_int, set_span_attribute_int]
  set m := set_span_attribute span .responseModel (optVal r.model) with hm
  have hmem : ∀ v ∈ [(AttrKey.usagePromptTokens, Value.int u.input_tokens),
      (AttrKey.usageCompletionTokens, Value.int u.output_tokens),
      (AttrKey.usageTotalTokens, Value.int (u.input_tokens + u.output_tokens))],
      v ∈ (((m.attrs ++ [(AttrKey.usagePromptTokens, Value.int u.input_tokens)]) ++
        [(AttrKey.usageCompletionTokens, Value.int u.output_tokens)]) ++
        [(AttrKey.usageTotalTokens, Value.int (u.input_tokens + u.output_tokens))]) := by
    intro v hv
    simp only [List.mem_cons, List.not_mem_nil, or_false] at hv
    rcases hv with h | h | h <;> rw [h] <;> simp
  by_cases hsend : should_send_prompts env ov
  · rw [if_pos hsend]
    refine ⟨?_, ?_, ?_⟩ <;>
      exact appendsOnly_mem (appendsOnly_set_span_completions r) _ (hmem _ (by simp))
  · rw [if_neg hsend]
    exact ⟨hmem _ (by simp), hmem _ (by simp), hmem _ (by simp)⟩

/-- When no image block lacks a source, the `_dump_content` loop produces
exactly the filtered mapping of `blockJson` over the list. -/
theorem dumpItems_filterMap (items : List Block)
    (h : ∀ it ∈ items, it.btype = some "image" → it.source ≠ Option.none) :
    dumpItems items = .ok (items.filterMap blockJson) := by
  induction items with
  | nil => rfl
  | cons it rest ih =>
    have hrest := ih (fun b hb => h b (List.mem_cons_of_mem _ hb))
    by_cases ht : it.btype = some "text"
    · simp [dumpItems, ht, hrest, blockJson, List.filterMap_cons]
    · by_cases hi : it.btype = some "image"
      · cases hsrc : it.source with
        | none => exact absurd hsrc (h it (List.mem_cons_self _ _) hi)
        | some src =>
          simp [dumpItems, ht, hi, hsrc, hrest, blockJson, List.filterMap_cons]
      · simp [dumpItems, ht, hi, hrest, blockJson, List.filterMap_cons]

/-- A block that is neither `text` nor `image` contributes nothing to the
`_dump_content` loop, wherever it sits in the list. -/
theorem dumpItems_drop (it : Block) (ht : it.btype ≠ some "text")
    (hi : it.btype ≠ some "image") :
    ∀ xs ys, dumpItems (xs ++ it :: ys) = dumpItems (xs ++ ys) := by
  intro xs
  induction xs with
  | nil =>
    intro ys
    simp [dumpItems, ht, hi]
  | cons x rest ih =>
    intro ys
    simp only [List.cons_append, dumpItems, List.append_eq]
    rw [ih]

/-- Claim C2 (code bug): `Remove` after `Install` should restore every
Target Registry entry, but `_uninstrument` hard-codes the
`anthropic.resources.completions` module path, so the wrapper installed on
`anthropic.resources.messages.Messages.create` is never removed: after
install-then-remove that target is still wrapped, and the key it tries to
unwrap differs from the key that was installed. -/
theorem uninstrument_leaves_messages_wrapped :
    isWrapped (uninstrument (instrument { wrappedKeys := [] }))
      ("anthropic.resources.messages", "Messages", "create") = true ∧
    uninstrument (instrument { wrappedKeys := [] }) ≠ { wrappedKeys := [] } ∧
    WRAPPED_METHODS.map uninstallKey ≠ WRAPPED_METHODS.map installKey := by
  refine ⟨by decide, by decide, by decide⟩

/-- Claim C3 counterexample: with the environment variable set to the
empty string (a string value that does not lowercase to `"true"`) and no
context override, the claim says content tracing is disabled, but the
code enables it (`os.getenv(...) or "true"` replaces a falsy empty
string with `"true"`). -/
theorem should_send_prompts_empty_string_enables :
    should_send_prompts (some "") false = true ∧ pyLower "" ≠ "true" := by
  exact ⟨by decide, by decide⟩

/-- Claim C3 (amended): content tracing is enabled exactly when the
environment variable is unset, set to the empty string, or lowercases to
`"true"`, or the context override is set; every other value disables
unless the override re-enables. -/
theorem should_send_prompts_characterization (env : Option String) (ov : Bool) :
    should_send_prompts env ov = true ↔
      env = Option.none ∨ env = some "" ∨
        (∃ s, env = some s ∧ pyLower s = "true") ∨ ov = true := by
  unfold should_send_prompts
  cases env with
  | none =>
    constructor
    · intro _
      exact Or.inl rfl
    · intro _
      have h1 : pyLower "true" = "true" := by decide
      simp only [Bool.or_eq_true, decide_eq_true_eq]
      exact Or.inl h1
  | some s =>
    by_cases hse : s = ""
    · subst hse
      constructor
      · intro _
        exact Or.inr (Or.inl rfl)
      · intro _
        simp only [if_pos rfl, Bool.or_eq_true, decide_eq_true_eq]
        exact Or.inl (by decide)
    · simp only [if_neg hse, Bool.or_eq_true, decide_eq_true_eq]
      constructor
      · rintro (h | h)
        · exact Or.inr (Or.inr (Or.inl ⟨s, rfl, h⟩))
        · exact Or.inr (Or.inr (Or.inr h))
      · rintro (h | h | ⟨t, ht, htl⟩ | h)
        · exact Option.noConfusion h
        · exact absurd (Option.some.inj h) hse
        · exact Or.inl ((Option.some.inj ht) ▸ htl)
        · exact Or.inr h

/-- Claim C4: with the suppress-instrumentation flag set in the current
context, the wrapper creates no span, writes nothing, and passes the
original outcome (return value or exception) through unchanged. -/
theorem wrap_suppressed (ct : Content → Int) (ctx : Ctx)
    (wrapped : Except String PyResult) (kwargs : Request)
    (h : ctx.suppress = true) :
    wrap ct ctx wrapped kwargs =
      { spanCreated := false, span := noSpan, result := wrapped } := by
  unfold wrap
  simp [h]

/-- Claim C4 witness: a concrete suppressed call whose delegate raises. -/
theorem wrap_suppressed_witness :
    wrap (fun _ => 0)
        { suppress := true, env := Option.none, contentOverride := false,
          recording := true }
        (.error "boom") {} =
      { spanCreated := false, span := noSpan, result := .error "boom" } :=
  wrap_suppressed _ _ _ _ rfl

/-- Claim C6: an attribute write happens exactly when the value is
neither `None` nor the empty string; a `None` or empty-string write
leaves the span unchanged, and any other value is appended. -/
theorem set_span_attribute_skips_empty (span : Span) (k : AttrKey) (v : Value) :
    ((v = Value.none ∨ v = Value.str "") → set_span_attribute span k v = span) ∧
    (v ≠ Value.none → v ≠ Value.str "" →
      set_span_attribute span k v = { span with attrs := span.attrs ++ [(k, v)] }) := by
  constructor
  · rintro (h | h) <;> simp [set_span_attribute, h]
  · intro h0 h1
    simp [set_span_attribute, h0, h1]

/-- Claim C6 witness: the empty string is skipped, the integer zero is
written. -/
theorem set_span_attribute_skips_empty_witness :
    set_span_attribute { attrs := [], status := Option.none, ended := false }
        .requestModel (.str "") =
      { attrs := [], status := Option.none, ended := false } ∧
    set_span_attribute { attrs := [], status := Option.none, ended := false }
        .requestModel (.int 0) =
      { attrs := [(.requestModel, .int 0)], status := Option.none, ended := false } := by
  constructor
  · exact (set_span_attribute_skips_empty _ _ _).1 (Or.inr rfl)
  · exact (set_span_attribute_skips_empty _ _ _).2 (by decide) (by decide)

/-- Claim C5: when the delegate call raises, the wrapper re-raises the
same exception, the span is still closed by the scoped acquisition, and
no completion attribute has been written. -/
theorem wrap_error_propagates (ct : Content → Int) (ctx : Ctx) (e : String)
    (kwargs : Request) (h : ctx.suppress = false) :
    (wrap ct ctx (.error e) kwargs).result = .error e ∧
    (wrap ct ctx (.error e) kwargs).spanCreated = true ∧
    (wrap ct ctx (.error e) kwargs).span.ended = true ∧
    (∀ i, lookupLast (wrap ct ctx (.error e) kwargs).span
      (.completionContent i) = Option.none) ∧
    (∀ i, lookupLast (wrap ct ctx (.error e) kwargs).span
      (.completionFinishReason i) = Option.none) := by
  refine ⟨by simp [wrap, h], by simp [wrap, h], by simp [wrap, h], ?_, ?_⟩
  · intro i
    have hp := preCall_lookupLast_none ctx.recording ctx.env ctx.contentOverride kwargs
      (.completionContent i) rfl (fun hh => AttrKey.noConfusion hh)
      (fun hh => AttrKey.noConfusion hh)
    simpa [wrap, h, lookupLast] using hp
  · intro i
    have hp := preCall_lookupLast_none ctx.recording ctx.env ctx.contentOverride kwargs
      (.completionFinishReason i) rfl (fun hh => AttrKey.noConfusion hh)
      (fun hh => AttrKey.noConfusion hh)
    simpa [wrap, h, lookupLast] using hp

/-- Claim C5 witness: a concrete unsuppressed call whose delegate raises. -/
theorem wrap_error_propagates_witness :
    (wrap (fun _ => 0) plainCtx (.error "boom") {}).result = .error "boom" ∧
    lookupLast (wrap (fun _ => 0) plainCtx (.error "boom") {}).span
      (.completionContent 0) = Option.none := by
  obtain ⟨h1, -, -, h4, -⟩ := wrap_error_propagates (fun _ => 0) plainCtx "boom" {} rfl
  exact ⟨h1, h4 0⟩

/-- Claim C9: post-call processing is gated on the truthiness of the
response, so a non-null falsy return value is passed through with no
response, usage or completion attributes written and the span status left
unset. -/
theorem wrap_falsy_response (ct : Content → Int) (ctx : Ctx) (kwargs : Request)
    (v : Value) (hs : ctx.suppress = false) (hv : pyTruthy v = false)
    (hnn : v ≠ Value.none) :
    (wrap ct ctx (.ok (.prim v)) kwargs).result = .ok (.prim v) ∧
    (wrap ct ctx (.ok (.prim v)) kwargs).span.status = Option.none ∧
    (wrap ct ctx (.ok (.prim v)) kwargs).span.ended = true ∧
    lookupLast (wrap ct ctx (.ok (.prim v)) kwargs).span .responseModel = Option.none ∧
    lookupLast (wrap ct ctx (.ok (.prim v)) kwargs).span .usagePromptTokens = Option.none ∧
    lookupLast (wrap ct ctx (.ok (.prim v)) kwargs).span
      .usageCompletionTokens = Option.none ∧
    lookupLast (wrap ct ctx (.ok (.prim v)) kwargs).span .usageTotalTokens = Option.none ∧
    (∀ i, lookupLast (wrap ct ctx (.ok (.prim v)) kwargs).span
      (.completionContent i) = Option.none) ∧
    (∀ i, lookupLast (wrap ct ctx (.ok (.prim v)) kwargs).span
      (.completionFinishReason i) = Option.none) := by
  have hkey : ∀ (k : AttrKey), isInputKey k = false → k ≠ .vendor → k ≠ .requestType →
      lookupLast (wrap ct ctx (.ok (.prim v)) kwargs).span k = Option.none := by
    intro k hk hv2 hr2
    have hp := preCall_lookupLast_none ctx.recording ctx.env ctx.contentOverride kwargs
      k hk hv2 hr2
    simpa [wrap, hs, resultTruthy, hv, lookupLast] using hp
  refine ⟨by simp [wrap, hs, resultTruthy, hv], ?_, by simp [wrap, hs, resultTruthy, hv],
    hkey _ rfl (fun hh => AttrKey.noConfusion hh) (fun hh => AttrKey.noConfusion hh),
    hkey _ rfl (fun hh => AttrKey.noConfusion hh) (fun hh => AttrKey.noConfusion hh),
    hkey _ rfl (fun hh => AttrKey.noConfusion hh) (fun hh => AttrKey.noConfusion hh),
    hkey _ rfl (fun hh => AttrKey.noConfusion hh) (fun hh => AttrKey.noConfusion hh),
    fun i => hkey _ rfl (fun hh => AttrKey.noConfusion hh) (fun hh => AttrKey.noConfusion hh),
    fun i => hkey _ rfl (fun hh => AttrKey.noConfusion hh) (fun hh => AttrKey.noConfusion hh)⟩
  have hst := preCall_status ctx.recording ctx.env ctx.contentOverride kwargs
  simpa [wrap, hs, resultTruthy, hv] using hst

/-- Claim C9 witness: the delegate returns the empty string (non-null,
falsy); it is passed through and no usage attribute is written. -/
theorem wrap_falsy_response_witness :
    (wrap (fun _ => 0) plainCtx (.ok (.prim (.str ""))) {}).result =
      .ok (.prim (.str "")) ∧
    (wrap (fun _ => 0) plainCtx (.ok (.prim (.str ""))) {}).span.status = Option.none ∧
    lookupLast (wrap (fun _ => 0) plainCtx (.ok (.prim (.str ""))) {}).span
      .usageTotalTokens = Option.none := by
  obtain ⟨h1, h2, -, -, -, -, h7, -⟩ := wrap_falsy_response (fun _ => 0) plainCtx
    {} (.str "") rfl rfl (by decide)
  exact ⟨h1, h2, h7⟩

/-- Claim C7: the fallback path writes all three usage attributes
unconditionally (zero included), the total equals prompt plus completion,
the prompt count comes from counting the prompt (or summing over each
message's content), and the completion count from the completion text or
the first content block's text. -/
theorem set_token_usage_fallback (ct : Content → Int) (span : Span)
    (request : Request) (response : Response) (hu : response.usage = Option.none) :
    lookupLast (set_token_usage ct span request response) .usagePromptTokens =
      some (.int (fallbackPromptTokens ct request)) ∧
    lookupLast (set_token_usage ct span request response) .usageCompletionTokens =
      some (.int (fallbackCompletionTokens ct response)) ∧
    lookupLast (set_token_usage ct span request response) .usageTotalTokens =
      some (.int (fallbackPromptTokens ct request + fallbackCompletionTokens ct response)) ∧
    (∀ p, request.prompt = some p → p ≠ "" →
      fallbackPromptTokens ct request = ct (.str p)) ∧
    (∀ ms, (request.prompt = Option.none ∨ request.prompt = some "") →
      request.messages = some ms → ms ≠ [] →
      fallbackPromptTokens ct request = countMessages ct ms) ∧
    (∀ c, response.completion = some c → c ≠ "" →
      fallbackCompletionTokens ct response = ct (.str c)) ∧
    (∀ b bs, (response.completion = Option.none ∨ response.completion = some "") →
      response.content = some (b :: bs) →
      fallbackCompletionTokens ct response = ct (.str b.text)) := by
  have ht := lookupLast_usage_triple span.attrs span.status span.ended
    (.int (fallbackPromptTokens ct request)) (.int (fallbackCompletionTokens ct response))
    (.int (fallbackPromptTokens ct request + fallbackCompletionTokens ct response))
  refine ⟨?_, ?_, ?_, ?_, ?_, ?_, ?_⟩
  · rw [set_token_usage_attrs]
    exact ht.1
  · rw [set_token_usage_attrs]
    exact ht.2.1
  · rw [set_token_usage_attrs]
    exact ht.2.2
  · intro p hp hpe
    simp [fallbackPromptTokens, hp, hpe]
  · intro ms hp hm hne
    rcases hp with hp | hp <;>
      simp [fallbackPromptTokens, hp, fallbackPromptMessages, hm, hne]
  · intro c hcp hce
    simp [fallbackCompletionTokens, hcp, hce]
  · intro b bs hcp hct
    rcases hcp with hcp | hcp <;>
      simp [fallbackCompletionTokens, hcp, fallbackCompletionContent, hct]

/-- Claim C7 witness: with a token counter returning 0 the three usage
attributes are still written, the prompt count being the zero value. -/
theorem set_token_usage_fallback_witness :
    lookupLast (set_token_usage (fun _ => 0) initialSpan { prompt := some "p" }
        { completion := some "done" }) .usagePromptTokens =
      some (.int (fallbackPromptTokens (fun _ => 0) { prompt := some "p" })) ∧
    lookupLast (set_token_usage (fun _ => 0) initialSpan { prompt := some "p" }
        { completion := some "done" }) .usageTotalTokens =
      some (.int (fallbackPromptTokens (fun _ => 0) { prompt := some "p" } +
        fallbackCompletionTokens (fun _ => 0) { completion := some "done" })) ∧
    fallbackPromptTokens (fun _ => 0) { prompt := some "p" } = 0 := by
  obtain ⟨h1, -, h3, -⟩ := set_token_usage_fallback (fun _ => 0) initialSpan
    { prompt := some "p" } { completion := some "done" } rfl
  exact ⟨h1, h3, rfl⟩

/-- Claim C10: completion extraction branches on truthiness, so an empty
legacy `completion` field is treated exactly as an absent one; the
finish-reason write is attempted first, and the completion-content
attributes then come from the `content` list elements' `text` fields. -/
theorem set_span_completions_empty_legacy (span : Span) (r : Response)
    (cs : List ContentBlock) (hc : r.completion = some "") (hct : r.content = some cs)
    (hne : cs ≠ []) (htxt : ∀ b ∈ cs, b.text ≠ "") :
    set_span_completions span r =
      set_span_completions span { r with completion := Option.none } ∧
    set_span_completions span r =
      writeContents (set_span_attribute span (.completionFinishReason 0)
        (optStrVal r.stop_reason)) 0 cs ∧
    (∀ i (h2 : i < cs.length),
      lookupLast (set_span_completions span r) (.completionContent i) =
        some (.str (cs.get ⟨i, h2⟩).text)) := by
  have heq : set_span_completions span r =
      writeContents (set_span_attribute span (.completionFinishReason 0)
        (optStrVal r.stop_reason)) 0 cs := by
    simp [set_span_completions, hc, hct, completionsContentCase]
  refine ⟨?_, heq, ?_⟩
  · rw [heq]
    simp [set_span_completions, hct, completionsContentCase]
  · intro i h2
    rw [heq]
    have := writeContents_lookupLast cs htxt 0
      (set_span_attribute span (.completionFinishReason 0) (optStrVal r.stop_reason)) i h2
    simpa using this

/-- Claim C10 witness: an empty legacy completion with a one-block
content list behaves as if the legacy field were absent, and the block's
text becomes the indexed completion-content attribute. -/
theorem set_span_completions_empty_legacy_witness :
    set_span_completions initialSpan
        { completion := some "", content := some [{ text := "hello" }],
          stop_reason := some "end_turn" } =
      set_span_completions initialSpan
        { completion := Option.none, content := some [{ text := "hello" }],
          stop_reason := some "end_turn" } ∧
    lookupLast (set_span_completions initialSpan
        { completion := some "", content := some [{ text := "hello" }],
          stop_reason := some "end_turn" }) (.completionContent 0) =
      some (.str "hello") := by
  obtain ⟨h1, -, h3⟩ := set_span_completions_empty_legacy initialSpan
    { completion := some "", content := some [{ text := "hello" }],
      stop_reason := some "end_turn" }
    [{ text := "hello" }] rfl rfl (by decide) (by decide)
  exact ⟨h1, h3 0 (by decide)⟩

/-- Claim C1 counterexample: a call whose response carries a native usage
object with 3 input and 5 output tokens, but whose final total-tokens
attribute is 200 (the fallback count with a counter returning 100 per
content), not 8: the fallback path runs after the native write and its
values win. -/
theorem wrap_native_usage_counterexample :
    lookupLast (wrap (fun _ => 100) plainCtx (.ok (.obj exRespNative))
        exReqMessages).span .usageTotalTokens = some (.int 200) ∧
    exRespNative.usage = some { input_tokens := 3, output_tokens := 5 } ∧
    ¬ lookupLast (wrap (fun _ => 100) plainCtx (.ok (.obj exRespNative))
        exReqMessages).span .usageTotalTokens = some (.int (3 + 5)) := by
  exact ⟨by decide, by decide, by decide⟩

/-- Claim C1 (amended): when the response carries a native usage object,
the wrapper does write prompt-tokens, completion-tokens and their sum
from it, but the fallback counting path still runs for that call and
appends its own three usage values afterwards, so the attributes' final
values are the fallback counts, not the native ones. -/
theorem wrap_native_usage_overwritten (ct : Content → Int) (ctx : Ctx)
    (kwargs : Request) (r : Response) (u : Usage) (hs : ctx.suppress = false)
    (hr : ctx.recording = true) (hu : r.usage = some u) :
    ((AttrKey.usagePromptTokens, Value.int u.input_tokens) ∈
        (wrap ct ctx (.ok (.obj r)) kwargs).span.attrs ∧
      (AttrKey.usageCompletionTokens, Value.int u.output_tokens) ∈
        (wrap ct ctx (.ok (.obj r)) kwargs).span.attrs ∧
      (AttrKey.usageTotalTokens, Value.int (u.input_tokens + u.output_tokens)) ∈
        (wrap ct ctx (.ok (.obj r)) kwargs).span.attrs) ∧
    lookupLast (wrap ct ctx (.ok (.obj r)) kwargs).span .usagePromptTokens =
      some (.int (fallbackPromptTokens ct kwargs)) ∧
    lookupLast (wrap ct ctx (.ok (.obj r)) kwargs).span .usageCompletionTokens =
      some (.int (fallbackCompletionTokens ct r)) ∧
    lookupLast (wrap ct ctx (.ok (.obj r)) kwargs).span .usageTotalTokens =
      some (.int (fallbackPromptTokens ct kwargs + fallbackCompletionTokens ct r)) := by
  have hspan : (wrap ct ctx (.ok (.obj r)) kwargs).span =
      { set_token_usage ct (set_response_attributes ctx.env ctx.contentOverride
          (set_input_attributes ctx.env ctx.contentOverride initialSpan kwargs) r)
          kwargs r with status := some true, ended := true } := by
    simp [wrap, hs, hr, resultTruthy, responsePhase]
  obtain ⟨m1, m2, m3⟩ := set_response_attributes_native_mem ctx.env ctx.contentOverride
    (set_input_attributes ctx.env ctx.contentOverride initialSpan kwargs) r u hu
  have htr := lookupLast_usage_triple
    (set_response_attributes ctx.env ctx.contentOverride
      (set_input_attributes ctx.env ctx.contentOverride initialSpan kwargs) r).attrs
    (set_response_attributes ctx.env ctx.contentOverride
      (set_input_attributes ctx.env ctx.contentOverride initialSpan kwargs) r).status
    (set_response_attributes ctx.env ctx.contentOverride
      (set_input_attributes ctx.env ctx.contentOverride initialSpan kwargs) r).ended
    (.int (fallbackPromptTokens ct kwargs)) (.int (fallbackCompletionTokens ct r))
    (.int (fallbackPromptTokens ct kwargs + fallbackCompletionTokens ct r))
  rw [hspan, set_token_usage_attrs]
  refine ⟨⟨?_, ?_, ?_⟩, ?_, ?_, ?_⟩
  · exact List.mem_append.2 (Or.inl m1)
  · exact List.mem_append.2 (Or.inl m2)
  · exact List.mem_append.2 (Or.inl m3)
  · exact htr.1
  · exact htr.2.1
  · exact htr.2.2

/-- Claim C1 amended-claim witness: a concrete call with native usage
(3, 5) and a counter returning 7: the native values are in the attribute
list, and the final total is the fallback sum. -/
theorem wrap_native_usage_overwritten_witness :
    ((AttrKey.usagePromptTokens, Value.int 3) ∈
      (wrap (fun _ => 7) plainCtx (.ok (.obj exRespLegacyNative))
        { prompt := some "q" }).span.attrs) ∧
    lookupLast (wrap (fun _ => 7) plainCtx (.ok (.obj exRespLegacyNative))
      { prompt := some "q" }).span .usageTotalTokens =
      some (.int (fallbackPromptTokens (fun _ => 7) { prompt := some "q" } +
        fallbackCompletionTokens (fun _ => 7) exRespLegacyNative)) := by
  obtain ⟨⟨m1, -, -⟩, -, -, h4⟩ := wrap_native_usage_overwritten (fun _ => 7)
    plainCtx { prompt := some "q" } exRespLegacyNative
    { input_tokens := 3, output_tokens := 5 } rfl rfl rfl
  exact ⟨m1, h4⟩

/-- Claim C8: the content serializer returns a plain string verbatim; a
structured list keeps only the text and image blocks (text blocks with
their type and text, image blocks with source type, media type and
string-coerced data), drops every other block wherever it occurs, and
serializes the filtered list to a single JSON string. -/
theorem dump_content_spec :
    (∀ s, dump_content (.str s) = .ok s) ∧
    (∀ items, (∀ it ∈ items, it.btype = some "image" → it.source ≠ Option.none) →
      dump_content (.blocks items) =
        .ok (Json.dumps (Json.arr (items.filterMap blockJson)))) ∧
    (∀ xs ys it, it.btype ≠ some "text" → it.btype ≠ some "image" →
      dump_content (.blocks (xs ++ it :: ys)) = dump_content (.blocks (xs ++ ys))) := by
  refine ⟨fun s => rfl, ?_, ?_⟩
  · intro items h
    simp [dump_content, dumpItems_filterMap items h]
  · intro xs ys it ht hi
    simp [dump_content, dumpItems_drop it ht hi xs ys]

/-- Claim C8 witness: one text block, one image block and one dropped
`tool_use` block serialize to the JSON rendering of the two kept blocks. -/
theorem dump_content_spec_witness :
    dump_content (.blocks exBlocks) =
      .ok (Json.dumps (Json.arr (exBlocks.filterMap blockJson))) :=
  dump_content_spec.2.1 _ (by decide)

end AnthropicShim
